import Mathlib

/-
Verification of the domain availability checker.

The repository has two components with logic:
- the availability prober, src/pages/api/check-domains.ts: three network
  probes per hostname (DNS resolution, TCP reachability of the fixed WHOIS
  endpoint, HTTPS reachability of the hostname), combined by majority vote;
- the normalizer inside handleCheck, src/pages/index.tsx lines 33-43:
  lowercase, strip one leading scheme, strip one leading www. label,
  truncate at the first slash.

The network is modelled as an environment: for each probe an inductive type
of the event that resolves its promise first (the probes never inspect the
network payload, only which callback fires). Per-domain evaluation is then a
pure function of that environment, and the batch handler maps it over the
request, one independent environment slot per position.

JavaScript string operations are embedded on List Char (JS strings are
sequences of code units; all inputs of interest here are ASCII, where
Char.toLower agrees with String.prototype.toLowerCase).
-/

namespace CheckDomain

/-! ## Data model (check-domains.ts lines 10-19) -/

/-- The methods record of a DomainResult: one boolean signal per probe. -/
structure Methods where
  dns : Bool
  whois : Bool
  http : Bool
deriving DecidableEq

/-- The terminal record for one input element (check-domains.ts lines 10-19).
The domain type is a parameter because the handler copies the request array
element into the result unchanged, whatever runtime value it is. -/
structure DomainResult (α : Type) where
  domain : α
  available : Bool
  methods : Methods
  error : Option String
deriving DecidableEq

/-! ## DNS probe (check-domains.ts lines 21-31) -/

/-- Outcome of dns.resolve for one hostname: success, or rejection with an
error code string. -/
inductive DnsResp where
  | ok
  | err (code : String)
deriving DecidableEq

/-- checkDNS (lines 21-31): resolution success returns false (registered);
the ENOTFOUND code returns true (available); any other code is re-thrown. -/
def checkDNS (domain : α) (resp : DnsResp) : Except String Bool :=
  match resp with
  | .ok => .ok false
  | .err code => if code = "ENOTFOUND" then .ok true else .error code

/-- The .catch (fun _ => false) wrapper the handler puts around each probe
call (lines 105-107): a rejected promise is downgraded to false. -/
def catchFalse (r : Except String Bool) : Bool :=
  match r with
  | .ok b => b
  | .error _ => false

/-! ## WHOIS reachability probe (check-domains.ts lines 33-55) -/

/-- Which socket callback fires first for the TCP connection attempt. -/
inductive NetEvent where
  | connected
  | timedOut
  | errored
deriving DecidableEq

/-- The socket timeout constant, line 36. -/
def whoisTimeoutMs : Nat := 2000

/-- The fixed endpoint host of socket.connect, line 50. -/
def whoisHost : String := "whois.internic.net"

/-- The fixed endpoint port of socket.connect, line 50. -/
def whoisPortNum : Nat := 43

/-- checkWhoisPort (lines 33-55). The function body never reads its domain
argument: the socket connects to the fixed endpoint whoisHost:whoisPortNum,
so the event is a property of that endpoint alone. Connect and timeout
resolve false, an immediate error resolves true; the promise never rejects. -/
def checkWhoisPort (ev : NetEvent) (domain : α) : Bool :=
  match ev with
  | .connected => false
  | .timedOut => false
  | .errored => true

/-! ## HTTP reachability probe (check-domains.ts lines 57-81) -/

/-- Which https.get callback fires first for the request to the hostname. -/
inductive HttpEvent where
  | response
  | errored
  | timedOut
deriving DecidableEq

/-- The request timeout constant, line 59. -/
def httpTimeoutMs : Nat := 3000

/-- checkHTTP (lines 57-81): any response resolves false (in use); a request
error or a timeout resolves true; the promise never rejects. The domain is
the request hostname, so the event observed depends on it through the
network, unlike the WHOIS probe. -/
def checkHTTP (ev : HttpEvent) (domain : α) : Bool :=
  match ev with
  | .response => false
  | .errored => true
  | .timedOut => true

/-! ## Per-domain evaluation (check-domains.ts lines 101-139) -/

/-- The network environment one array element sees: the DNS resolution
outcome for it, the event of the WHOIS-endpoint connection attempt, the
event of the HTTPS request to it, and whether the per-domain evaluation
throws outside the three caught probe calls (the catch on lines 127-138). -/
structure DomainEnv where
  dns : DnsResp
  whois : NetEvent
  http : HttpEvent
  crash : Bool
deriving DecidableEq

/-- Object.values(methodResults).filter(r => r).length, lines 118-120. -/
def countTrue (m : Methods) : Nat :=
  (([m.dns, m.whois, m.http]).filter (fun b => b)).length

/-- The error string of the per-domain catch, line 136. -/
def errorMessage : String := "Unable to check domain availability"

/-- The body of the map callback, lines 101-139: if the evaluation throws
outside the three caught probe calls, the fixed error record; otherwise the
three caught probe outcomes and the majority vote availableCount >= 2. -/
def evalDomain (env : DomainEnv) (domain : α) : DomainResult α :=
  if env.crash then
    { domain := domain
      available := false
      methods := { dns := false, whois := false, http := false }
      error := some errorMessage }
  else
    let methodResults : Methods :=
      { dns := catchFalse (checkDNS domain env.dns)
        whois := checkWhoisPort env.whois domain
        http := checkHTTP env.http domain }
    { domain := domain
      available := decide (2 ≤ countTrue methodResults)
      methods := methodResults
      error := none }

/-- domains.map over the batch with one environment slot per position
(duplicated hostnames at different positions are probed independently);
the index threading mirrors that each callback invocation does its own
network calls. -/
def probeAllFrom (env : Nat → DomainEnv) (i : Nat) : List α → List (DomainResult α)
  | [] => []
  | d :: ds => evalDomain (env i) d :: probeAllFrom env (i + 1) ds

/-- Promise.all(domains.map ...), lines 100-140, as a pure batch function. -/
def probeAll (env : Nat → DomainEnv) (ds : List α) : List (DomainResult α) :=
  probeAllFrom env 0 ds

/-! ## Request handler (check-domains.ts lines 83-146) -/

/-- A JSON-ish runtime value for the domains field of the request body. -/
inductive JVal where
  | str (s : String)
  | num (n : Int)
  | jbool (b : Bool)
  | jnull
  | arr (xs : List JVal)

/-- Array.isArray(domains), line 94; an absent field (none) is not an array. -/
def isArrayVal : Option JVal → Bool
  | some (.arr _) => true
  | _ => false

/-- The responses the handler can send: 405 with no body (line 88), 400 with
no body (line 95), or 200 with the result list (line 142). -/
inductive ApiResponse (α : Type) where
  | methodNotAllowed
  | badRequest
  | ok (results : List (DomainResult α))

/-- handler (lines 83-146): non-POST gets 405; a domains field that is not
an array gets 400; an array is probed element by element. Only
Array.isArray is checked, so element types are not validated. -/
def handler (env : Nat → DomainEnv) (method : String) (domainsField : Option JVal) :
    ApiResponse JVal :=
  if method ≠ "POST" then .methodNotAllowed
  else
    match domainsField with
    | some (.arr domains) => .ok (probeAll env domains)
    | _ => .badRequest

/-! ## Normalizer (index.tsx lines 33-43) -/

/-- String.prototype.split with a one-character separator: the list of
chunks between occurrences of the separator, always non-empty. -/
def jsSplit (sep : Char) : List Char → List (List Char)
  | [] => [[]]
  | c :: cs =>
    if c = sep then [] :: jsSplit sep cs
    else
      match jsSplit sep cs with
      | [] => [[c]]
      | t :: ts => (c :: t) :: ts

/-- String.prototype.trim: drop whitespace from both ends. -/
def jsTrim (s : List Char) : List Char :=
  ((s.dropWhile Char.isWhitespace).reverse.dropWhile Char.isWhitespace).reverse

/-- Whether the first list starts the second. -/
def hasPfx : List Char → List Char → Bool
  | [], _ => true
  | _ :: _, [] => false
  | p :: ps, c :: cs => p = c && hasPfx ps cs

/-- replace of an anchored literal pattern by the empty string: drop the
pattern when it starts the string, else leave the string unchanged. -/
def stripPfx (p s : List Char) : List Char :=
  if hasPfx p s then s.drop p.length else s

/-- cleanDomain.replace of the anchored https?:// pattern (line 39): the
regex is greedy, so on an https:// prefix it removes all 8 characters. The
input is already lowercased, making the i flag redundant. -/
def stripScheme (s : List Char) : List Char :=
  if hasPfx "https://".toList s then s.drop 8
  else if hasPfx "http://".toList s then s.drop 7
  else s

/-- The map callback of handleCheck, index.tsx lines 38-42: lowercase, strip
one leading scheme, strip one leading www. label, take split('/')[0]. -/
def normalizeChars (s : List Char) : List Char :=
  let s1 := s.map Char.toLower
  let s2 := stripScheme s1
  let s3 := stripPfx "www.".toList s2
  (jsSplit '/' s3).headD []

/-- The normalizer on strings. -/
def normalize (domain : String) : String :=
  ⟨normalizeChars domain.toList⟩

/-- Modelled from the spec: section 4.1 states the normalization rule as
four ordered steps, where step 4 reads truncate at the first slash
character; steps 1-3 coincide with the code transparently, so this
definition differs from normalize only in expressing step 4 as takeWhile. -/
def normalizeSpec (domain : String) : String :=
  let lowered := domain.toList.map Char.toLower
  let noScheme := stripScheme lowered
  let noWww := stripPfx "www.".toList noScheme
  ⟨noWww.takeWhile (fun c => c != '/')⟩

/-- The domainList pipeline of handleCheck, index.tsx lines 33-43: split the
textbox on newlines, trim each line, drop falsy (empty) lines, then
normalize each surviving line. Filtering happens before normalization and
the normalized output is not filtered. -/
def domainList (input : String) : List String :=
  let lines := jsSplit '\n' input.toList
  (((lines.map jsTrim).filter (fun l => !l.isEmpty)).map
    (fun l => normalize (String.mk l)))

/-! ## Sample environments used by witnesses -/

/-- All three probes report in use, no crash. -/
def envAllInUse : DomainEnv :=
  { dns := .ok, whois := .connected, http := .response, crash := false }

/-- All three probes report available, no crash. -/
def envAllOpen : DomainEnv :=
  { dns := .err "ENOTFOUND", whois := .errored, http := .errored, crash := false }

/-- The per-domain evaluation throws outside the caught probe calls. -/
def envCrash : DomainEnv :=
  { dns := .ok, whois := .connected, http := .response, crash := true }

/-! ## Helper lemmas -/

theorem evalDomain_domain (env : DomainEnv) (d : α) : (evalDomain env d).domain = d := by
  unfold evalDomain
  split <;> rfl

theorem evalDomain_available (env : DomainEnv) (d : α) :
    (evalDomain env d).available = decide (2 ≤ countTrue (evalDomain env d).methods) := by
  unfold evalDomain
  split <;> rfl

theorem probeAllFrom_length (env : Nat → DomainEnv) (i : Nat) (ds : List α) :
    (probeAllFrom env i ds).length = ds.length := by
  induction ds generalizing i with
  | nil => rfl
  | cons d ds ih => simp [probeAllFrom, ih]

theorem probeAll_length (env : Nat → DomainEnv) (ds : List α) :
    (probeAll env ds).length = ds.length :=
  probeAllFrom_length env 0 ds

theorem probeAllFrom_get (env : Nat → DomainEnv) (ds : List α) (i k : Nat)
    (h : k < ds.length) (hh : k < (probeAllFrom env i ds).length) :
    (probeAllFrom env i ds).get ⟨k, hh⟩ = evalDomain (env (i + k)) (ds.get ⟨k, h⟩) := by
  induction ds generalizing i k with
  | nil => simp at h
  | cons d ds ih =>
    cases k with
    | zero => rfl
    | succ k =>
      have h2 : k < ds.length := Nat.lt_of_succ_lt_succ h
      have hh2 : k < (probeAllFrom env (i + 1) ds).length := by
        rw [probeAllFrom_length]
        exact h2
      have hstep : (probeAllFrom env i (d :: ds)).get ⟨k + 1, hh⟩
          = (probeAllFrom env (i + 1) ds).get ⟨k, hh2⟩ := rfl
      rw [hstep, ih (i + 1) k h2 hh2, Nat.add_assoc, Nat.add_comm 1 k]
      rfl

theorem probeAll_get (env : Nat → DomainEnv) (ds : List α) (k : Nat)
    (h : k < ds.length) (hh : k < (probeAll env ds).length) :
    (probeAll env ds).get ⟨k, hh⟩ = evalDomain (env k) (ds.get ⟨k, h⟩) := by
  have := probeAllFrom_get env ds 0 k h hh
  simpa using this

theorem probeAllFrom_map_domain (env : Nat → DomainEnv) (i : Nat) (ds : List α) :
    (probeAllFrom env i ds).map (fun r => r.domain) = ds := by
  induction ds generalizing i with
  | nil => rfl
  | cons d ds ih => simp [probeAllFrom, evalDomain_domain, ih]

theorem mem_probeAllFrom (env : Nat → DomainEnv) (i : Nat) (ds : List α)
    (r : DomainResult α) (h : r ∈ probeAllFrom env i ds) :
    ∃ j d, r = evalDomain (env j) d := by
  induction ds generalizing i with
  | nil => simp [probeAllFrom] at h
  | cons d ds ih =>
    simp only [probeAllFrom, List.mem_cons] at h
    rcases h with h | h
    · exact ⟨i, d, h⟩
    · exact ih (i + 1) h

theorem jsSplit_ne_nil (sep : Char) (s : List Char) : jsSplit sep s ≠ [] := by
  induction s with
  | nil => simp [jsSplit]
  | cons c cs ih =>
    simp only [jsSplit]
    split
    · simp
    · split <;> simp

theorem jsSplit_headD (sep : Char) (s : List Char) :
    (jsSplit sep s).headD [] = s.takeWhile (fun c => c != sep) := by
  induction s with
  | nil => rfl
  | cons c cs ih =>
    simp only [jsSplit]
    by_cases hc : c = sep
    · simp [hc]
    · rw [if_neg hc]
      cases hsp : jsSplit sep cs with
      | nil => exact absurd hsp (jsSplit_ne_nil sep cs)
      | cons t ts =>
        have ht : t = cs.takeWhile (fun c => c != sep) := by
          rw [← ih, hsp]
          rfl
        simp [List.takeWhile_cons, hc, ht]

theorem normalize_eq_spec (d : String) : normalize d = normalizeSpec d := by
  simp only [normalize, normalizeSpec, normalizeChars]
  rw [jsSplit_headD]

/-! ## The claims -/

/-- Claim C1: every DomainResult produced for a batch, the per-domain error
path included, has available equal to the majority vote over its methods
field: available is true exactly when at least two of methods.dns,
methods.whois, methods.http are true; it is never set independently of
methods. -/
theorem available_is_majority_of_methods (env : Nat → DomainEnv) (ds : List α)
    (r : DomainResult α) (h : r ∈ probeAll env ds) :
    r.available = decide (2 ≤ countTrue r.methods) := by
  obtain ⟨j, d, rfl⟩ := mem_probeAllFrom env 0 ds r h
  exact evalDomain_available (env j) d

/-- Witness for C1 at a concrete batch. -/
theorem available_is_majority_of_methods_witness :
    (evalDomain envAllOpen ("a" : String)).available
      = decide (2 ≤ countTrue (evalDomain envAllOpen ("a" : String)).methods) :=
  available_is_majority_of_methods (fun _ => envAllOpen) ["a"] _ (List.Mem.head _)

/-- Claim C2: probeAll returns exactly one DomainResult per input element,
in input order, each with domain equal to the corresponding input element;
the result at position k is the evaluation of that position with its own
environment slot, so duplicated hostnames are probed independently with no
de-duplication or caching across the batch. -/
theorem probeAll_one_result_per_input (env : Nat → DomainEnv) (ds : List α) :
    (probeAll env ds).length = ds.length ∧
    (probeAll env ds).map (fun r => r.domain) = ds ∧
    ∀ k (h : k < ds.length) (hh : k < (probeAll env ds).length),
      (probeAll env ds).get ⟨k, hh⟩ = evalDomain (env k) (ds.get ⟨k, h⟩) :=
  ⟨probeAll_length env ds, probeAllFrom_map_domain env 0 ds,
   fun k h hh => probeAll_get env ds k h hh⟩

/-- Witness for C2 at a concrete batch with a duplicated hostname. -/
theorem probeAll_one_result_per_input_witness :
    (probeAll (fun _ => envAllInUse) ["a", "a"]).map (fun r => r.domain)
      = [("a" : String), "a"] ∧
    (probeAll (fun _ => envAllInUse) [("a" : String), "a"]).get ⟨1, by decide⟩
      = evalDomain envAllInUse "a" :=
  ⟨(probeAll_one_result_per_input (fun _ => envAllInUse) ["a", "a"]).2.1,
   (probeAll_one_result_per_input (fun _ => envAllInUse) ["a", "a"]).2.2
     1 (by decide) (by decide)⟩

/-- Claim C3: the normalizer applies exactly the four spec steps in order
(lowercase, strip one leading scheme, strip one leading www. label,
truncate at the first slash), agreeing with the spec-worded rule on every
string, and matches the three examples of the spec; it is a total function. -/
theorem normalize_applies_spec_steps :
    (∀ d : String, normalize d = normalizeSpec d) ∧
    normalize "HTTPS://WWW.Example.COM/path?x=1" = "example.com" ∧
    normalize "example.net" = "example.net" ∧
    normalize "www.sub.example.org/" = "sub.example.org" :=
  ⟨normalize_eq_spec, by decide, by decide, by decide⟩

/-- Claim C4: the DNS probe votes false on resolution success, true exactly
on the ENOTFOUND error code, and false on every other resolution failure,
the latter being absorbed by the catch into the vote (the dns slot of the
methods field) rather than propagated. -/
theorem dns_probe_outcome (env : DomainEnv) (d : α) (code : String) :
    catchFalse (checkDNS d .ok) = false ∧
    catchFalse (checkDNS d (.err "ENOTFOUND")) = true ∧
    (code ≠ "ENOTFOUND" → catchFalse (checkDNS d (.err code)) = false) ∧
    (env.crash = false → (evalDomain env d).methods.dns = catchFalse (checkDNS d env.dns)) := by
  refine ⟨rfl, rfl, ?_, ?_⟩
  · intro hne
    simp [checkDNS, catchFalse, hne]
  · intro hcrash
    simp [evalDomain, hcrash]

/-- Witness for C4 at a concrete non-ENOTFOUND code and environment. -/
theorem dns_probe_outcome_witness :
    catchFalse (checkDNS ("a" : String) (.err "ETIMEDOUT")) = false ∧
    (evalDomain envAllInUse ("a" : String)).methods.dns
      = catchFalse (checkDNS ("a" : String) envAllInUse.dns) :=
  ⟨(dns_probe_outcome envAllInUse ("a" : String) "ETIMEDOUT").2.2.1 (by decide),
   (dns_probe_outcome envAllInUse ("a" : String) "ETIMEDOUT").2.2.2 rfl⟩

/-- Claim C5: the WHOIS-reachability probe votes false when the connection
is established, false when the attempt times out (timeout constant 2000 ms),
and true when the connection errors immediately; the asymmetry between the
timeout and immediate-error outcomes holds exactly. -/
theorem whois_probe_outcome (d : α) :
    checkWhoisPort .connected d = false ∧
    checkWhoisPort .timedOut d = false ∧
    checkWhoisPort .errored d = true ∧
    whoisTimeoutMs = 2000 :=
  ⟨rfl, rfl, rfl, rfl⟩

/-- Claim C6: the WHOIS-reachability probe is hostname-independent: under
the same connection event it returns the same boolean for any two domain
arguments (even of different runtime types), since it only connects to the
fixed endpoint whois.internic.net port 43 and sends no per-domain query. -/
theorem whois_probe_hostname_independent (ev : NetEvent) (d1 : α) (d2 : β) :
    checkWhoisPort ev d1 = checkWhoisPort ev d2 ∧
    whoisHost = "whois.internic.net" ∧
    whoisPortNum = 43 :=
  ⟨by cases ev <;> rfl, rfl, rfl⟩

/-- Claim C7: the HTTP-reachability probe votes false whenever any response
arrives, true when the request errors, and true when it times out (timeout
constant 3000 ms) — the timeout outcome is the opposite of the WHOIS
probe's timeout outcome. -/
theorem http_probe_outcome (d : α) :
    checkHTTP .response d = false ∧
    checkHTTP .errored d = true ∧
    checkHTTP .timedOut d = true ∧
    httpTimeoutMs = 3000 ∧
    checkHTTP .timedOut d ≠ checkWhoisPort .timedOut d :=
  ⟨rfl, rfl, rfl, rfl, fun hcontra => Bool.noConfusion hcontra⟩

/-- Counterexample to C8 as stated: a domains array containing a non-string
element is not rejected — the handler checks only Array.isArray, so the
request is accepted and probed, yielding a 200 result list, not a client
error. -/
theorem nonstring_array_element_not_rejected :
    handler (fun _ => envAllInUse) "POST" (some (.arr [.num 5]))
      = .ok [{ domain := .num 5, available := false,
               methods := { dns := false, whois := false, http := false },
               error := none }] ∧
    handler (fun _ => envAllInUse) "POST" (some (.arr [.num 5]))
      ≠ .badRequest :=
  ⟨rfl, fun hcontra => ApiResponse.noConfusion hcontra⟩

/-- Claim C8 (amended): for a POST request, the endpoint responds with the
client-error status and no result list exactly when the domains field is
not an array; element types are not validated, so an array with non-string
elements passes the check and is probed. -/
theorem non_array_domains_rejected (env : Nat → DomainEnv) (body : Option JVal)
    (h : isArrayVal body = false) :
    handler env "POST" body = .badRequest := by
  cases body with
  | none => rfl
  | some v =>
    cases v with
    | str s => rfl
    | num n => rfl
    | jbool b => rfl
    | jnull => rfl
    | arr xs => simp [isArrayVal] at h

/-- Witness for amended C8 at a concrete non-array body. -/
theorem non_array_domains_rejected_witness :
    handler (fun _ => envAllInUse) "POST" (some (.num 3)) = .badRequest :=
  non_array_domains_rejected (fun _ => envAllInUse) (some (.num 3)) (by decide)

/-- Claim C9: when the per-domain evaluation throws outside the three
caught probe calls, the result is exactly the fixed error record (available
false, all methods false, the fixed error string); and each position of the
batch depends only on its own environment slot, so the other results are
unaffected. -/
theorem crash_yields_error_result (e : DomainEnv) (d : α)
    (env env2 : Nat → DomainEnv) (ds : List α)
    (hc : e.crash = true) :
    evalDomain e d
      = { domain := d, available := false,
          methods := { dns := false, whois := false, http := false },
          error := some "Unable to check domain availability" } ∧
    ∀ k (h : k < ds.length) (hh : k < (probeAll env ds).length)
        (hh2 : k < (probeAll env2 ds).length), env k = env2 k →
      (probeAll env ds).get ⟨k, hh⟩ = (probeAll env2 ds).get ⟨k, hh2⟩ := by
  constructor
  · simp [evalDomain, hc, errorMessage]
  · intro k h hh hh2 heq
    rw [probeAll_get env ds k h hh, probeAll_get env2 ds k h hh2, heq]

/-- Witness for C9: a crashing first slot gives the error record, and its
result is unchanged when the second slot's environment differs. -/
theorem crash_yields_error_result_witness :
    evalDomain envCrash ("a" : String)
      = { domain := "a", available := false,
          methods := { dns := false, whois := false, http := false },
          error := some "Unable to check domain availability" } ∧
    (probeAll (fun _ => envCrash) [("a" : String), "b"]).get ⟨0, by decide⟩
      = (probeAll (fun i => if i = 0 then envCrash else envAllInUse)
          [("a" : String), "b"]).get ⟨0, by decide⟩ :=
  ⟨(crash_yields_error_result envCrash ("a" : String) (fun _ => envCrash)
      (fun i => if i = 0 then envCrash else envAllInUse) ["a", "b"] rfl).1,
   (crash_yields_error_result envCrash ("a" : String) (fun _ => envCrash)
      (fun i => if i = 0 then envCrash else envAllInUse) ["a", "b"] rfl).2
     0 (by decide) (by decide) (by decide) (by decide)⟩

/-- Claim C10: some non-empty trimmed input lines normalize to the empty
string, and that empty hostname is still included in the submitted batch:
blank lines are discarded only before normalization and the normalized
output is not filtered. -/
theorem empty_normalized_hostname_kept :
    normalize "https://" = "" ∧
    normalize "www." = "" ∧
    domainList "a.com\nhttps://\n   \nwww." = ["a.com", "", ""] :=
  ⟨by decide, by decide, by decide⟩

end CheckDomain
